import Mathlib

/-!
Verification of `crew_builder_croq_fancy.py`, a single-file Streamlit app that
collects agent configurations, sequentially dispatches one remote
chat-completion call per agent, and assembles a downloadable plain-text report.

Shallow embedding conventions:
* The external agent runtime (`Agent(...)`, `Runner.run`) is parameterised:
  `mkAgent` models the `Agent` constructor and `runA` models one awaited
  `Runner.run` round trip; each returns `Except String _` because any of them
  may raise (the `except` clauses in the source catch everything).
* Effects are made explicit values: `st.error` calls become a returned list of
  message strings, each `Runner.run` invocation is recorded in a returned
  trace of prompt strings, `st.session_state` and `os.environ["OPENAI_API_KEY"]`
  become fields of an explicit `ProcessState` threaded through
  `handle_crew_creation`.
* `datetime.now()` is called twice while building the report; the two readings
  are passed in as the parameters `ts1` and `ts2`.
-/

/-- One entry of the `agent_configs` list built in the UI loop:
`{"name": agent_name, "instructions": instructions}`. -/
structure AgentConfig where
  name : String
  instructions : String
deriving Repr, DecidableEq

/-- The record produced by the external `Agent(name=..., instructions=..., model=model)`
constructor, as far as this program observes it (the model handle is shared and
carried by the parameterised stubs). -/
structure Agent where
  name : String
  instructions : String
deriving Repr, DecidableEq

/-- The prompt built at line 109 of the source:
`config["instructions"] + "\n\nAdditional Context: " + human_input`. -/
def promptFor (config : AgentConfig) (human_input : String) : String :=
  config.instructions ++ "\n\nAdditional Context: " ++ human_input

/-- Embedding of `create_and_run_crew` (source lines 95-116).
Returns the pair the Python function returns — `some (agentlist, results)` on
success, `none` standing for the `return None, None` taken when an iteration
raises — together with the list of `st.error` messages shown and the trace of
prompts actually sent to `Runner.run` (a raising remote call is still a call
that was made, so its prompt is in the trace; a failing `Agent` construction
makes no call). -/
def create_and_run_crew (mkAgent : String → String → Except String Agent)
    (runA : Agent → String → Except String String) (human_input : String) :
    List AgentConfig → Option (List Agent × List String) × List String × List String
  | [] => (some ([], []), [], [])
  | config :: rest =>
    match mkAgent config.name config.instructions with
    | Except.error e => (none, ["Error creating agent: " ++ e], [])
    | Except.ok agent =>
      match runA agent (promptFor config human_input) with
      | Except.error e =>
          (none, ["Error creating agent: " ++ e], [promptFor config human_input])
      | Except.ok result =>
        match create_and_run_crew mkAgent runA human_input rest with
        | (none, errs, calls) => (none, errs, promptFor config human_input :: calls)
        | (some (agentlist, results), errs, calls) =>
            (some (agent :: agentlist, result :: results), errs,
              promptFor config human_input :: calls)

/-- `"=" * 50` from the report template. -/
def rule_eq : String := String.mk (List.replicate 50 '=')

/-- `"-" * 50` from the report template. -/
def rule_dash : String := String.mk (List.replicate 50 '-')

/-- The configuration section loop of the report (source lines 71-74),
`i` being the running `enumerate` index. -/
def configEntries : Nat → List AgentConfig → String
  | _, [] => ""
  | i, c :: rest =>
      "\n" ++ "Agent " ++ toString (i + 1) ++ ": " ++ c.name ++ "\n" ++
      "Instructions:\n" ++ c.instructions ++ "\n" ++ rule_dash ++ "\n" ++
      configEntries (i + 1) rest

/-- The results section loop of the report (source lines 84-87); the source
pairs `results[i]` with `agent_configs[i]` by index, which on the (only
reachable) equal-length inputs is the elementwise zip of the two lists. -/
def resultEntries : Nat → List (AgentConfig × String) → String
  | _, [] => ""
  | i, (c, out) :: rest =>
      "\n" ++ "Agent " ++ toString (i + 1) ++ ": " ++ c.name ++ "\n" ++
      "Output:\n" ++ out ++ "\n" ++ rule_dash ++ "\n" ++
      resultEntries (i + 1) rest

/-- The header f-string of the report (source lines 59-70). -/
def reportHeader (ts1 human_input : String) : String :=
  "AUTONOMOUS CREW BUILDER - COMPLETE REPORT" ++ "\n" ++ rule_eq ++ "\n\n" ++
  "PART 1: CREW CONFIGURATION" ++ "\n" ++ rule_eq ++ "\n" ++
  "Timestamp: " ++ ts1 ++ "\n\n" ++
  "Additional Context:\n" ++ human_input ++ "\n\n" ++
  "Agent Configurations:\n"

/-- The middle f-string of the report (source lines 76-83). -/
def reportMiddle (ts2 : String) : String :=
  "\n" ++ rule_eq ++ "\n" ++ "PART 2: CREW RESULTS" ++ "\n" ++ rule_eq ++ "\n" ++
  "Timestamp: " ++ ts2 ++ "\n\n" ++ "Results by Agent:\n"

/-- The full `combined_text` report of a completed run (source lines 59-87). -/
def combined_text (human_input ts1 ts2 : String) (agent_configs : List AgentConfig)
    (results : List String) : String :=
  reportHeader ts1 human_input ++ configEntries 0 agent_configs ++
  reportMiddle ts2 ++ resultEntries 0 (agent_configs.zip results)

/-- `st.session_state` as this program uses it. -/
structure SessionState where
  download_content : Option String
deriving Repr, DecidableEq

/-- State outside a single invocation: the Streamlit session state plus the
process environment entry written at source line 19
(`os.environ["OPENAI_API_KEY"] = groq_api_key`). -/
structure ProcessState where
  session : SessionState
  openai_api_key_env : Option String
deriving Repr, DecidableEq

/-- Embedding of `handle_crew_creation` (source lines 12-93).
`mkModel` models the `OpenAIChatCompletionsModel(...)` construction inside the
`try` block (any exception there lands in the generic `except`). Returns the
new process state, the `st.error` messages shown, and the trace of remote
calls made. Python's `if not groq_api_key` is the test for the empty string. -/
def handle_crew_creation (mkModel : Except String Unit)
    (mkAgent : String → String → Except String Agent)
    (runA : Agent → String → Except String String)
    (agent_configs : List AgentConfig) (human_input : String)
    (groq_api_key : String) (ts1 ts2 : String) (ps : ProcessState) :
    ProcessState × List String × List String :=
  if groq_api_key = "" then
    (ps, ["Please enter your GROQ API key in the sidebar!"], [])
  else
    let ps1 : ProcessState := { ps with openai_api_key_env := some groq_api_key }
    match mkModel with
    | Except.error e =>
        (ps1, ["An error occurred while creating the crew: " ++ e,
               "Please check your GROQ API key and try again."], [])
    | Except.ok _ =>
      match create_and_run_crew mkAgent runA human_input agent_configs with
      | (none, errs, calls) => (ps1, errs, calls)
      | (some (_, results), errs, calls) =>
          let report := combined_text human_input ts1 ts2 agent_configs results
          ({ ps1 with session := { download_content := some report } }, errs, calls)

/-- Models `st.text_input` / `st.text_area`: an absent user entry is returned
as the empty string, never an error. -/
def text_input (v : Option String) : String := v.getD ""

/-- Models `st.number_input('Number of Agents', min_value=1, max_value=10, value=1)`
(source lines 192-198): the widget only ever yields a value inside the
declared bounds, modelled as clamping the requested value into `[1, 10]`. -/
def number_of_agents (raw : Nat) : Nat := min 10 (max 1 raw)

/-- The collector loop of source lines 201-215: one `AgentConfig` per index in
`range(number_of_agents)`, fields taken verbatim from the (possibly absent)
text widgets. -/
def agent_configs (n : Nat) (names instrs : Nat → Option String) : List AgentConfig :=
  (List.range n).map fun i =>
    { name := text_input (names i), instructions := text_input (instrs i) }

/-- `seqContains needles hay` holds when every string of `needles` occurs in
`hay`, in the given order and without overlap: `hay` splits into interleaving
text with the needles embedded left to right. -/
def seqContains : List String → List Char → Prop
  | [], _ => True
  | n :: ns, h => ∃ pre rest, h = pre ++ n.data ++ rest ∧ seqContains ns rest

/-- The pieces of report content the specification requires to appear in
order: the header line, the two section titles, the `=` rule lines around
them, and, per agent, its name, its instructions (configuration section) or
its output (results section), each followed by a `-` rule line. -/
def reportNeedles (cfgs : List AgentConfig) (results : List String) : List String :=
  ["AUTONOMOUS CREW BUILDER - COMPLETE REPORT", rule_eq,
    "PART 1: CREW CONFIGURATION", rule_eq] ++
  (cfgs.flatMap fun c => [c.name, c.instructions, rule_dash]) ++
  ([rule_eq, "PART 2: CREW RESULTS", rule_eq] ++
    ((cfgs.zip results).flatMap fun p => [p.1.name, p.2, rule_dash]))

/-- On a successful dispatch, the agent and result lists have the same length
as the configuration list and correspond to it index by index. -/
theorem crew_success_spec (mkAgent : String → String → Except String Agent)
    (runA : Agent → String → Except String String) (human_input : String) :
    ∀ (cfgs : List AgentConfig) (agents : List Agent) (results errs calls : List String),
      create_and_run_crew mkAgent runA human_input cfgs = (some (agents, results), errs, calls) →
      agents.length = cfgs.length ∧ results.length = cfgs.length ∧
      ∀ (i : Nat) (h : i < cfgs.length) (hA : i < agents.length) (hR : i < results.length),
        mkAgent ((cfgs.get ⟨i, h⟩).name) ((cfgs.get ⟨i, h⟩).instructions)
            = Except.ok (agents.get ⟨i, hA⟩) ∧
        runA (agents.get ⟨i, hA⟩) (promptFor (cfgs.get ⟨i, h⟩) human_input)
            = Except.ok (results.get ⟨i, hR⟩) := by
  intro cfgs
  induction cfgs with
  | nil =>
    intro agents results errs calls h
    simp only [create_and_run_crew, Prod.mk.injEq, Option.some.injEq] at h
    obtain ⟨⟨ha, hr⟩, -, -⟩ := h
    subst ha; subst hr
    refine ⟨rfl, rfl, ?_⟩
    intro i h hA hR
    exact absurd h (by simp)
  | cons c rest ih =>
    intro agents results errs calls h
    cases hmk : mkAgent c.name c.instructions with
    | error e => simp [create_and_run_crew, hmk] at h
    | ok a =>
      cases hrun : runA a (promptFor c human_input) with
      | error e => simp [create_and_run_crew, hmk, hrun] at h
      | ok r =>
        rcases hrec : create_and_run_crew mkAgent runA human_input rest with ⟨o, errs2, calls2⟩
        cases o with
        | none => simp [create_and_run_crew, hmk, hrun, hrec] at h
        | some p =>
          obtain ⟨as, rs⟩ := p
          simp only [create_and_run_crew, hmk, hrun, hrec, Prod.mk.injEq, Option.some.injEq] at h
          obtain ⟨⟨ha, hr⟩, -, -⟩ := h
          subst ha; subst hr
          obtain ⟨hlen1, hlen2, hidx⟩ := ih as rs errs2 calls2 hrec
          refine ⟨by simp [hlen1], by simp [hlen2], ?_⟩
          intro i h hA hR
          cases i with
          | zero => simp [List.get, hmk, hrun]
          | succ j =>
            have hj : j < rest.length := by simpa using h
            have hjA : j < as.length := by simpa using hA
            have hjR : j < rs.length := by simpa using hR
            simpa using hidx j hj hjA hjR

/-- C1: for every N with 1 ≤ N ≤ 10, a successful run of the dispatcher
`create_and_run_crew` over N agent configurations returns a results list of
exactly length N, in input order, the result at index i being produced by
constructing the agent from the configuration at index i and running it on
that configuration's prompt. -/
theorem C1_dispatch_length_and_order (mkAgent : String → String → Except String Agent)
    (runA : Agent → String → Except String String) (human_input : String)
    (cfgs : List AgentConfig) (agents : List Agent) (results errs calls : List String)
    (hN1 : 1 ≤ cfgs.length) (hN2 : cfgs.length ≤ 10)
    (h : create_and_run_crew mkAgent runA human_input cfgs
          = (some (agents, results), errs, calls)) :
    results.length = cfgs.length ∧
    ∀ (i : Nat) (hc : i < cfgs.length) (hR : i < results.length),
      ∃ a, mkAgent ((cfgs.get ⟨i, hc⟩).name) ((cfgs.get ⟨i, hc⟩).instructions) = Except.ok a ∧
        runA a (promptFor (cfgs.get ⟨i, hc⟩) human_input) = Except.ok (results.get ⟨i, hR⟩) := by
  obtain ⟨hlen1, hlen2, hidx⟩ := crew_success_spec mkAgent runA human_input cfgs agents results errs calls h
  refine ⟨hlen2, ?_⟩
  intro i hc hR
  have hA : i < agents.length := by omega
  obtain ⟨h1, h2⟩ := hidx i hc hA hR
  exact ⟨agents.get ⟨i, hA⟩, h1, h2⟩

/-- Witness for C1 at one concrete configuration against an echo stub. -/
theorem C1_witness :
    (["Summarize X\n\nAdditional Context: focus on Q3"] : List String).length
      = ([{ name := "Researcher", instructions := "Summarize X" }] : List AgentConfig).length :=
  (C1_dispatch_length_and_order (fun n i => Except.ok ⟨n, i⟩) (fun _ p => Except.ok p)
    "focus on Q3" [{ name := "Researcher", instructions := "Summarize X" }]
    [{ name := "Researcher", instructions := "Summarize X" }]
    ["Summarize X\n\nAdditional Context: focus on Q3"] []
    ["Summarize X\n\nAdditional Context: focus on Q3"]
    (by decide) (by decide) (by decide)).1

/-- C3: with an empty (absent) credential string, `handle_crew_creation`
makes zero remote calls, leaves all state untouched, and reports failure with
the user-facing credential message. -/
theorem C3_missing_credential (mkModel : Except String Unit)
    (mkAgent : String → String → Except String Agent)
    (runA : Agent → String → Except String String)
    (cfgs : List AgentConfig) (hi ts1 ts2 : String) (ps : ProcessState) :
    handle_crew_creation mkModel mkAgent runA cfgs hi "" ts1 ts2 ps
      = (ps, ["Please enter your GROQ API key in the sidebar!"], []) := rfl

/-- C6: dispatching twice with the same configurations and context against
deterministic stubs (two invocations whose stubs answer identically) yields
identical outcomes, result sequences included. -/
theorem C6_deterministic (mkA1 mkA2 : String → String → Except String Agent)
    (runA1 runA2 : Agent → String → Except String String) (hi : String)
    (cfgs : List AgentConfig)
    (hA : ∀ n i, mkA1 n i = mkA2 n i) (hR : ∀ a p, runA1 a p = runA2 a p) :
    create_and_run_crew mkA1 runA1 hi cfgs = create_and_run_crew mkA2 runA2 hi cfgs := by
  have h1 : mkA1 = mkA2 := funext fun n => funext fun i => hA n i
  have h2 : runA1 = runA2 := funext fun a => funext fun p => hR a p
  rw [h1, h2]

/-- Witness for C6 at a concrete configuration and echo stub. -/
theorem C6_witness :
    create_and_run_crew (fun n i => Except.ok ⟨n, i⟩) (fun _ p => Except.ok p) "c"
        [{ name := "a", instructions := "b" }]
      = create_and_run_crew (fun n i => Except.ok ⟨n, i⟩) (fun _ p => Except.ok p) "c"
        [{ name := "a", instructions := "b" }] :=
  C6_deterministic _ _ _ _ _ _ (fun _ _ => rfl) (fun _ _ => rfl)

/-- C7: every configuration list the collector hands to the dispatcher has
length N with 1 ≤ N ≤ 10, the length being exactly the bounded
`number_of_agents` widget value. -/
theorem C7_collector_bounds (raw : Nat) (names instrs : Nat → Option String) :
    (agent_configs (number_of_agents raw) names instrs).length = number_of_agents raw ∧
    1 ≤ (agent_configs (number_of_agents raw) names instrs).length ∧
    (agent_configs (number_of_agents raw) names instrs).length ≤ 10 := by
  have hlen : (agent_configs (number_of_agents raw) names instrs).length
      = number_of_agents raw := by
    simp [agent_configs]
  refine ⟨hlen, ?_, ?_⟩ <;> rw [hlen] <;> unfold number_of_agents <;> omega

/-- C2: if every entry before index k succeeds and the k-th entry fails
(either its agent construction or its remote call raises), the dispatcher
returns no result list, reports an error, and the calls actually made stop at
the k-th prompt: the trace is an initial segment of at most k + 1 prompts. -/
theorem C2_abort_on_failure (mkAgent : String → String → Except String Agent)
    (runA : Agent → String → Except String String) (hi : String) :
    ∀ (cfgs : List AgentConfig) (k : Nat) (hk : k < cfgs.length),
      (∀ (i : Nat) (h : i < cfgs.length), i < k →
        ∃ a r, mkAgent ((cfgs.get ⟨i, h⟩).name) ((cfgs.get ⟨i, h⟩).instructions) = Except.ok a ∧
          runA a (promptFor (cfgs.get ⟨i, h⟩) hi) = Except.ok r) →
      ((∃ e, mkAgent ((cfgs.get ⟨k, hk⟩).name) ((cfgs.get ⟨k, hk⟩).instructions)
          = Except.error e) ∨
       (∃ a e, mkAgent ((cfgs.get ⟨k, hk⟩).name) ((cfgs.get ⟨k, hk⟩).instructions)
          = Except.ok a ∧ runA a (promptFor (cfgs.get ⟨k, hk⟩) hi) = Except.error e)) →
      (create_and_run_crew mkAgent runA hi cfgs).1 = none ∧
      (create_and_run_crew mkAgent runA hi cfgs).2.1 ≠ [] ∧
      ∃ m, m ≤ k + 1 ∧
        (create_and_run_crew mkAgent runA hi cfgs).2.2
          = ((cfgs.take m).map fun c => promptFor c hi) := by
  intro cfgs
  induction cfgs with
  | nil =>
    intro k hk
    exact absurd hk (by simp)
  | cons c rest ih =>
    intro k hk hok hfail
    cases k with
    | zero =>
      rcases hfail with ⟨e, he⟩ | ⟨a, e, ha, he⟩
      · have he2 : mkAgent c.name c.instructions = Except.error e := he
        refine ⟨?_, ?_, 0, by omega, ?_⟩ <;> simp [create_and_run_crew, he2]
      · have ha2 : mkAgent c.name c.instructions = Except.ok a := ha
        have he2 : runA a (promptFor c hi) = Except.error e := he
        refine ⟨?_, ?_, 1, by omega, ?_⟩ <;> simp [create_and_run_crew, ha2, he2]
    | succ j =>
      have h0 : (0 : Nat) < (c :: rest).length := by simp
      obtain ⟨a, r, ha0, hr0⟩ := hok 0 h0 (by omega)
      have ha : mkAgent c.name c.instructions = Except.ok a := ha0
      have hr : runA a (promptFor c hi) = Except.ok r := hr0
      have hj : j < rest.length := by simpa using hk
      have hok2 : ∀ (i : Nat) (h : i < rest.length), i < j →
          ∃ a r, mkAgent ((rest.get ⟨i, h⟩).name) ((rest.get ⟨i, h⟩).instructions)
              = Except.ok a ∧
            runA a (promptFor (rest.get ⟨i, h⟩) hi) = Except.ok r := by
        intro i h hij
        have := hok (i + 1) (by simpa using Nat.succ_lt_succ h) (Nat.succ_lt_succ hij)
        simpa using this
      have hfail2 : (∃ e, mkAgent ((rest.get ⟨j, hj⟩).name) ((rest.get ⟨j, hj⟩).instructions)
          = Except.error e) ∨
          (∃ a e, mkAgent ((rest.get ⟨j, hj⟩).name) ((rest.get ⟨j, hj⟩).instructions)
            = Except.ok a ∧ runA a (promptFor (rest.get ⟨j, hj⟩) hi) = Except.error e) := by
        simpa using hfail
      obtain ⟨h1, h2, m, hm, h3⟩ := ih j hj hok2 hfail2
      rcases hrec : create_and_run_crew mkAgent runA hi rest with ⟨o, errs2, calls2⟩
      rw [hrec] at h1 h2 h3
      cases o with
      | some p => simp at h1
      | none =>
        refine ⟨?_, ?_, m + 1, by omega, ?_⟩
        · simp [create_and_run_crew, ha, hr, hrec]
        · simpa [create_and_run_crew, ha, hr, hrec] using h2
        · simp only at h3
          simp [create_and_run_crew, ha, hr, hrec, List.take_succ_cons, h3]

/-- Witness for C2: two configurations whose second remote call fails. -/
theorem C2_witness :
    (create_and_run_crew (fun n i => Except.ok ⟨n, i⟩)
      (fun a _ => if a.name = "b" then Except.error "boom" else Except.ok "ok") "ctx"
      [{ name := "a", instructions := "i1" }, { name := "b", instructions := "i2" }]).1
      = none :=
  (C2_abort_on_failure (fun n i => Except.ok ⟨n, i⟩)
    (fun a _ => if a.name = "b" then Except.error "boom" else Except.ok "ok") "ctx"
    [{ name := "a", instructions := "i1" }, { name := "b", instructions := "i2" }] 1
    (by decide)
    (fun i h hi1 => by
      have h0 : i = 0 := by omega
      subst h0
      exact ⟨⟨"a", "i1"⟩, "ok", rfl, rfl⟩)
    (Or.inr ⟨⟨"b", "i2"⟩, "boom", rfl, rfl⟩)).1

/-- The trace of remote calls of any dispatch is the prompt sequence of an
initial segment of the configuration list. -/
theorem crew_trace_shape (mkAgent : String → String → Except String Agent)
    (runA : Agent → String → Except String String) (hi : String) :
    ∀ cfgs : List AgentConfig, ∃ m, m ≤ cfgs.length ∧
      (create_and_run_crew mkAgent runA hi cfgs).2.2
        = ((cfgs.take m).map fun c => promptFor c hi) := by
  intro cfgs
  induction cfgs with
  | nil => exact ⟨0, by simp, by simp [create_and_run_crew]⟩
  | cons c rest ih =>
    obtain ⟨m, hm, htr⟩ := ih
    cases hmk : mkAgent c.name c.instructions with
    | error e => exact ⟨0, by simp, by simp [create_and_run_crew, hmk]⟩
    | ok a =>
      cases hrun : runA a (promptFor c hi) with
      | error e => exact ⟨1, by simp, by simp [create_and_run_crew, hmk, hrun]⟩
      | ok r =>
        rcases hrec : create_and_run_crew mkAgent runA hi rest with ⟨o, errs2, calls2⟩
        rw [hrec] at htr
        simp only at htr
        cases o with
        | none =>
          refine ⟨m + 1, by simp only [List.length_cons]; omega, ?_⟩
          simp [create_and_run_crew, hmk, hrun, hrec, List.take_succ_cons, htr]
        | some p =>
          obtain ⟨as, rs⟩ := p
          refine ⟨m + 1, by simp only [List.length_cons]; omega, ?_⟩
          simp [create_and_run_crew, hmk, hrun, hrec, List.take_succ_cons, htr]

/-- C4: every prompt sent to the remote service is the agent's instructions,
then the literal `"\n\nAdditional Context: "`, then the shared context; and
on the spec's echo-stub example the single output is
`"Summarize X\n\nAdditional Context: focus on Q3"`. -/
theorem C4_prompt_format :
    (∀ (mkAgent : String → String → Except String Agent)
       (runA : Agent → String → Except String String) (hi : String)
       (cfgs : List AgentConfig),
      ∃ m, m ≤ cfgs.length ∧
        (create_and_run_crew mkAgent runA hi cfgs).2.2
          = (cfgs.take m).map fun c =>
              c.instructions ++ "\n\nAdditional Context: " ++ hi) ∧
    (create_and_run_crew (fun n i => Except.ok ⟨n, i⟩) (fun _ p => Except.ok p)
        "focus on Q3" [{ name := "Researcher", instructions := "Summarize X" }]).1
      = some ([{ name := "Researcher", instructions := "Summarize X" }],
          ["Summarize X\n\nAdditional Context: focus on Q3"]) := by
  constructor
  · intro mkAgent runA hi cfgs
    exact crew_trace_shape mkAgent runA hi cfgs
  · decide

/-- Text may precede the needles. -/
theorem seqContains_skip (p : List Char) (ns : List String) (h : List Char)
    (hns : seqContains ns h) : seqContains ns (p ++ h) := by
  cases ns with
  | nil => trivial
  | cons n ns =>
    obtain ⟨q, r, hEq, hrest⟩ := hns
    exact ⟨p ++ q, r, by simp [hEq], hrest⟩

/-- A needle at the front of the haystack is consumed. -/
theorem seqContains_here (n : String) (ns : List String) (rest : List Char)
    (hrest : seqContains ns rest) : seqContains (n :: ns) (n.data ++ rest) :=
  ⟨[], rest, rfl, hrest⟩

/-- Ordered containment splits over concatenation. -/
theorem seqContains_append (ns1 ns2 : List String) (h1 h2 : List Char)
    (hs1 : seqContains ns1 h1) (hs2 : seqContains ns2 h2) :
    seqContains (ns1 ++ ns2) (h1 ++ h2) := by
  induction ns1 generalizing h1 with
  | nil => exact seqContains_skip h1 ns2 h2 hs2
  | cons n ns ih =>
    obtain ⟨p, r, hEq, hrest⟩ := hs1
    subst hEq
    refine ⟨p, r ++ h2, by simp, ih r hrest⟩

/-- The configuration section lists, in order, each agent's name and
instructions verbatim, each entry followed by the `-` rule line. -/
theorem configEntries_contains (cfgs : List AgentConfig) : ∀ i : Nat,
    seqContains (cfgs.flatMap fun c => [c.name, c.instructions, rule_dash])
      (configEntries i cfgs).data := by
  induction cfgs with
  | nil => intro i; trivial
  | cons c rest ih =>
    intro i
    have hsplit : (configEntries i (c :: rest)).data
        = ("\n" ++ "Agent " ++ toString (i + 1) ++ ": ").data ++
          (c.name.data ++ (("\n" ++ "Instructions:\n").data ++
          (c.instructions.data ++ ("\n".data ++ (rule_dash.data ++
          ("\n".data ++ (configEntries (i + 1) rest).data)))))) := by
      simp [configEntries, String.data_append, List.append_assoc]
    have hneed : ((c :: rest).flatMap fun c => [c.name, c.instructions, rule_dash])
        = c.name :: c.instructions :: rule_dash ::
          (rest.flatMap fun c => [c.name, c.instructions, rule_dash]) := by
      simp
    rw [hsplit, hneed]
    exact seqContains_skip _ _ _ (seqContains_here _ _ _ (seqContains_skip _ _ _
      (seqContains_here _ _ _ (seqContains_skip _ _ _ (seqContains_here _ _ _
        (seqContains_skip _ _ _ (ih (i + 1))))))))

/-- The results section lists, in order, each agent's name and output
verbatim, each entry followed by the `-` rule line. -/
theorem resultEntries_contains (pairs : List (AgentConfig × String)) : ∀ i : Nat,
    seqContains (pairs.flatMap fun p => [p.1.name, p.2, rule_dash])
      (resultEntries i pairs).data := by
  induction pairs with
  | nil => intro i; trivial
  | cons p rest ih =>
    intro i
    obtain ⟨c, out⟩ := p
    have hsplit : (resultEntries i ((c, out) :: rest)).data
        = ("\n" ++ "Agent " ++ toString (i + 1) ++ ": ").data ++
          (c.name.data ++ (("\n" ++ "Output:\n").data ++
          (out.data ++ ("\n".data ++ (rule_dash.data ++
          ("\n".data ++ (resultEntries (i + 1) rest).data)))))) := by
      simp [resultEntries, String.data_append, List.append_assoc]
    have hneed : (((c, out) :: rest).flatMap fun p => [p.1.name, p.2, rule_dash])
        = c.name :: out :: rule_dash ::
          (rest.flatMap fun p => [p.1.name, p.2, rule_dash]) := by
      simp
    rw [hsplit, hneed]
    exact seqContains_skip _ _ _ (seqContains_here _ _ _ (seqContains_skip _ _ _
      (seqContains_here _ _ _ (seqContains_skip _ _ _ (seqContains_here _ _ _
        (seqContains_skip _ _ _ (ih (i + 1))))))))

/-- The report header carries the title and the `=`-delimited configuration
section label. -/
theorem reportHeader_contains (ts1 hi : String) :
    seqContains ["AUTONOMOUS CREW BUILDER - COMPLETE REPORT", rule_eq,
      "PART 1: CREW CONFIGURATION", rule_eq] (reportHeader ts1 hi).data := by
  have hsplit : (reportHeader ts1 hi).data
      = "AUTONOMOUS CREW BUILDER - COMPLETE REPORT".data ++ ("\n".data ++
        (rule_eq.data ++ ("\n\n".data ++ ("PART 1: CREW CONFIGURATION".data ++
        ("\n".data ++ (rule_eq.data ++
          ("\n" ++ "Timestamp: " ++ ts1 ++ "\n\n" ++ "Additional Context:\n" ++ hi ++
            "\n\n" ++ "Agent Configurations:\n").data)))))) := by
    simp [reportHeader, String.data_append, List.append_assoc]
  rw [hsplit]
  exact seqContains_here _ _ _ (seqContains_skip _ _ _ (seqContains_here _ _ _
    (seqContains_skip _ _ _ (seqContains_here _ _ _ (seqContains_skip _ _ _
      (seqContains_here _ _ _ trivial))))))

/-- The report middle carries the `=`-delimited results section label. -/
theorem reportMiddle_contains (ts2 : String) :
    seqContains [rule_eq, "PART 2: CREW RESULTS", rule_eq] (reportMiddle ts2).data := by
  have hsplit : (reportMiddle ts2).data
      = "\n".data ++ (rule_eq.data ++ ("\n".data ++ ("PART 2: CREW RESULTS".data ++
        ("\n".data ++ (rule_eq.data ++
          ("\n" ++ "Timestamp: " ++ ts2 ++ "\n\n" ++ "Results by Agent:\n").data))))) := by
    simp [reportMiddle, String.data_append, List.append_assoc]
  rw [hsplit]
  exact seqContains_skip _ _ _ (seqContains_here _ _ _ (seqContains_skip _ _ _
    (seqContains_here _ _ _ (seqContains_skip _ _ _ (seqContains_here _ _ _ trivial)))))

/-- C5: the report of a successful run contains, in order, the header, a
configuration section listing every agent's name and instructions verbatim,
then a results section listing every agent's name and output verbatim, the
sections delimited by lines of 50 `=` characters and each agent entry
followed by a line of 50 `-` characters. -/
theorem C5_report_structure (hi ts1 ts2 : String) (cfgs : List AgentConfig)
    (results : List String) (hlen : results.length = cfgs.length) :
    rule_eq.data = List.replicate 50 '=' ∧ rule_dash.data = List.replicate 50 '-' ∧
    seqContains (reportNeedles cfgs results)
      (combined_text hi ts1 ts2 cfgs results).data := by
  refine ⟨rfl, rfl, ?_⟩
  have hsplit : (combined_text hi ts1 ts2 cfgs results).data
      = ((reportHeader ts1 hi).data ++ (configEntries 0 cfgs).data) ++
        ((reportMiddle ts2).data ++ (resultEntries 0 (cfgs.zip results)).data) := by
    simp [combined_text, String.data_append, List.append_assoc]
  rw [hsplit]
  exact seqContains_append _ _ _ _
    (seqContains_append _ _ _ _ (reportHeader_contains ts1 hi)
      (configEntries_contains cfgs 0))
    (seqContains_append _ _ _ _ (reportMiddle_contains ts2)
      (resultEntries_contains (cfgs.zip results) 0))

/-- Witness for C5 on a concrete one-agent run. -/
theorem C5_witness :
    seqContains
      (reportNeedles [{ name := "A", instructions := "I" }] ["O"])
      (combined_text "ctx" "T1" "T2" [{ name := "A", instructions := "I" }] ["O"]).data :=
  (C5_report_structure "ctx" "T1" "T2" [{ name := "A", instructions := "I" }] ["O"] rfl).2.2

/-- With stubs that always succeed, the dispatch succeeds on every
configuration list and calls the service once per entry. -/
theorem crew_all_ok (mkAgent : String → String → Except String Agent)
    (runA : Agent → String → Except String String) (hi : String)
    (hA : ∀ n i, ∃ a, mkAgent n i = Except.ok a)
    (hR : ∀ a p, ∃ r, runA a p = Except.ok r) :
    ∀ cfgs : List AgentConfig, ∃ agents results,
      create_and_run_crew mkAgent runA hi cfgs
        = (some (agents, results), [], cfgs.map fun c => promptFor c hi) ∧
      results.length = cfgs.length := by
  intro cfgs
  induction cfgs with
  | nil => exact ⟨[], [], rfl, rfl⟩
  | cons c rest ih =>
    obtain ⟨agents, results, hrec, hlen⟩ := ih
    obtain ⟨a, ha⟩ := hA c.name c.instructions
    obtain ⟨r, hr⟩ := hR a (promptFor c hi)
    refine ⟨a :: agents, r :: results, ?_, by simp [hlen]⟩
    simp [create_and_run_crew, ha, hr, hrec]

/-- C8: the collector raises no error on any input: absent names and
instructions are taken as the empty string, every resulting configuration is
kept, and the dispatcher still constructs and dispatches an agent for each
one, with no validation or uniqueness constraint. -/
theorem C8_no_validation (raw : Nat) (hi : String)
    (names instrs : Nat → Option String)
    (mkAgent : String → String → Except String Agent)
    (runA : Agent → String → Except String String)
    (hA : ∀ n i, ∃ a, mkAgent n i = Except.ok a)
    (hR : ∀ a p, ∃ r, runA a p = Except.ok r) :
    (agent_configs (number_of_agents raw) names instrs).length = number_of_agents raw ∧
    (∀ (i : Nat) (h : i < (agent_configs (number_of_agents raw) names instrs).length),
      (agent_configs (number_of_agents raw) names instrs).get ⟨i, h⟩
        = { name := (names i).getD "", instructions := (instrs i).getD "" }) ∧
    ∃ agents results,
      create_and_run_crew mkAgent runA hi (agent_configs (number_of_agents raw) names instrs)
        = (some (agents, results), [],
            (agent_configs (number_of_agents raw) names instrs).map fun c => promptFor c hi) ∧
      results.length = (agent_configs (number_of_agents raw) names instrs).length := by
  refine ⟨by simp [agent_configs], ?_, ?_⟩
  · intro i h
    simp [agent_configs, text_input] at h ⊢
  · exact crew_all_ok mkAgent runA hi hA hR _

/-- Witness for C8 with every widget left empty. -/
theorem C8_witness :
    (agent_configs (number_of_agents 1) (fun _ => none) (fun _ => none)).length
      = number_of_agents 1 :=
  (C8_no_validation 1 "ctx" (fun _ => none) (fun _ => none)
    (fun n i => Except.ok ⟨n, i⟩) (fun _ p => Except.ok p)
    (fun n i => ⟨⟨n, i⟩, rfl⟩) (fun _ p => ⟨p, rfl⟩)).1

/-- C9 fails on the code: after a completed invocation the credential is
still retained outside the session state, in the process environment entry
written by `os.environ["OPENAI_API_KEY"] = groq_api_key`. -/
theorem C9_counterexample :
    ((handle_crew_creation (Except.ok ()) (fun n i => Except.ok ⟨n, i⟩)
        (fun _ p => Except.ok p)
        [{ name := "Researcher", instructions := "Summarize X" }] "focus on Q3"
        "gsk-secret-credential" "t1" "t2"
        { session := { download_content := none },
          openai_api_key_env := none }).1.openai_api_key_env
      = some "gsk-secret-credential") := by
  decide

/-- C9 (amended): the credential is stored into the process environment
variable `OPENAI_API_KEY`, which retains it after the invocation; apart from
that environment entry, no state outside the invocation retains the
credential — the resulting session state is independent of the credential
string. -/
theorem C9_amended (mkModel : Except String Unit)
    (mkAgent : String → String → Except String Agent)
    (runA : Agent → String → Except String String)
    (cfgs : List AgentConfig) (hi key key2 ts1 ts2 : String) (ps : ProcessState)
    (hkey : key ≠ "") (hkey2 : key2 ≠ "") :
    ((handle_crew_creation mkModel mkAgent runA cfgs hi key ts1 ts2 ps).1.openai_api_key_env
      = some key) ∧
    ((handle_crew_creation mkModel mkAgent runA cfgs hi key ts1 ts2 ps).1.session
      = (handle_crew_creation mkModel mkAgent runA cfgs hi key2 ts1 ts2 ps).1.session) := by
  cases mkModel with
  | error e => constructor <;> simp [handle_crew_creation, hkey, hkey2]
  | ok u =>
    rcases hrec : create_and_run_crew mkAgent runA hi cfgs with ⟨o, errs, calls⟩
    cases o with
    | none => constructor <;> simp [handle_crew_creation, hkey, hkey2, hrec]
    | some p =>
      obtain ⟨agents, results⟩ := p
      constructor <;> simp [handle_crew_creation, hkey, hkey2, hrec]

/-- Witness for the amended C9 at concrete credentials. -/
theorem C9_amended_witness :
    ((handle_crew_creation (Except.ok ()) (fun n i => Except.ok ⟨n, i⟩)
        (fun _ p => Except.ok p) [] "ctx" "k1" "t1" "t2"
        { session := { download_content := none },
          openai_api_key_env := none }).1.openai_api_key_env = some "k1") :=
  (C9_amended (Except.ok ()) (fun n i => Except.ok ⟨n, i⟩) (fun _ p => Except.ok p)
    [] "ctx" "k1" "k2" "t1" "t2"
    { session := { download_content := none }, openai_api_key_env := none }
    (by decide) (by decide)).1

/-- C10: on any failing invocation of `handle_crew_creation` (missing
credential, model-construction error, or dispatch failure) the stored
`download_content` is left exactly as it was, so an earlier report stays
available; it changes only on a fully successful run, and then to the report
of that run. -/
theorem C10_download_only_on_success (mkModel : Except String Unit)
    (mkAgent : String → String → Except String Agent)
    (runA : Agent → String → Except String String)
    (cfgs : List AgentConfig) (hi key ts1 ts2 : String) (ps : ProcessState) :
    ((key = "" ∨ (∃ e, mkModel = Except.error e) ∨
        (create_and_run_crew mkAgent runA hi cfgs).1 = none) →
      (handle_crew_creation mkModel mkAgent runA cfgs hi key ts1 ts2
          ps).1.session.download_content
        = ps.session.download_content) ∧
    ((handle_crew_creation mkModel mkAgent runA cfgs hi key ts1 ts2
          ps).1.session.download_content
        ≠ ps.session.download_content →
      ∃ agents results,
        (create_and_run_crew mkAgent runA hi cfgs).1 = some (agents, results) ∧
        (handle_crew_creation mkModel mkAgent runA cfgs hi key ts1 ts2
            ps).1.session.download_content
          = some (combined_text hi ts1 ts2 cfgs results)) := by
  by_cases hkey : key = ""
  · subst hkey
    constructor
    · intro _; rfl
    · intro hne; exact absurd rfl hne
  · cases mkModel with
    | error e =>
      constructor
      · intro _; simp [handle_crew_creation, hkey]
      · intro hne
        exact absurd (by simp [handle_crew_creation, hkey]) hne
    | ok u =>
      rcases hrec : create_and_run_crew mkAgent runA hi cfgs with ⟨o, errs, calls⟩
      cases o with
      | none =>
        constructor
        · intro _; simp [handle_crew_creation, hkey, hrec]
        · intro hne
          exact absurd (by simp [handle_crew_creation, hkey, hrec]) hne
      | some p =>
        obtain ⟨agents, results⟩ := p
        constructor
        · rintro (h | ⟨e, he⟩ | h)
          · exact absurd h hkey
          · simp at he
          · simp at h
        · intro hne
          exact ⟨agents, results, rfl, by simp [handle_crew_creation, hkey, hrec]⟩

/-- Witness for C10: a missing-credential invocation preserves a previously
stored report. -/
theorem C10_witness :
    (handle_crew_creation (Except.ok ()) (fun n i => Except.ok ⟨n, i⟩)
        (fun _ p => Except.ok p) [] "ctx" "" "t1" "t2"
        { session := { download_content := some "old report" },
          openai_api_key_env := none }).1.session.download_content
      = some "old report" :=
  (C10_download_only_on_success (Except.ok ()) (fun n i => Except.ok ⟨n, i⟩)
    (fun _ p => Except.ok p) [] "ctx" "" "t1" "t2"
    { session := { download_content := some "old report" },
      openai_api_key_env := none }).1 (Or.inl rfl)
